import Mathlib

/-!
Shallow embedding of the `circuitbreaker` Go package (files `counters.go`,
`breaker.go`, and a second copy of the counter file): a rolling health
counter made of per-second buckets, and a two-state circuit breaker on top.

Modelling decisions:
* `time.Time` is modelled by nanoseconds since the zero instant (`Time.ns`);
  `IsZero` is `ns = 0`, `Sub` is the signed difference, `Second` is the
  seconds-of-minute component.  `time.Duration` is a signed nanosecond count.
* The counter serialises all mutation through a single event loop (`run`), so
  the per-event handlers `doSuccess`, `doFail`, `doSummary` are embedded as
  pure state transformers taking the instant at which the handler runs
  (Go calls `time.Now()`; the two adjacent `time.Now()` calls inside one
  handler are modelled as the same instant).
* `float64` values arising in this package are exact: `ErrorPercentage` is
  `float64(int64 quotient) * 100`, an integer in [0,100], and the threshold
  is a small decimal literal; both are represented faithfully by `ℚ`.
  Go's `/` on `int64` truncates toward zero, which is `Int.tdiv`.
* The repository contains two copies of the counter: one (the file whose name
  is unknown) whose `doFail` increments `failures`, and `counters.go`, whose
  `doFail` increments `success`.  The shared code is embedded once; the two
  `doFail` bodies are embedded as `doFail` and `CountersGo.doFail`.
* The breaker's `state` is a `uint32` holding only the constants
  `CloseState = 0` and `OpenState = 1`; it is modelled by a two-constructor
  enumeration.  In the sequential model the `CompareAndSwapUint32` in
  `update` always succeeds, and the non-blocking send on the `changes`
  channel has no modelled effect.
-/

namespace CircuitBreaker

/-- Go `time.Time`, as nanoseconds since the zero instant. -/
structure Time where
  ns : Nat
deriving DecidableEq, Repr, Inhabited

/-- Go `t.IsZero()`. -/
def Time.isZero (t : Time) : Bool := t.ns == 0

/-- Go `t.Second()`: the second offset within the minute, in [0,59]. -/
def Time.second (t : Time) : Nat := (t.ns / 1000000000) % 60

/-- Go `t.Sub(u)`: signed nanosecond difference (a `time.Duration`). -/
def Time.sub (t u : Time) : Int := (t.ns : Int) - (u.ns : Int)

/-- Go `time.Duration`: a signed nanosecond count. -/
abbrev Duration := Int

/-- Go `time.Second`. -/
def secondDuration : Duration := 1000000000

/-- The distinguished `error` values of the package, plus arbitrary errors
returned by a wrapped operation. -/
inductive GoError where
  | ErrNumberOfSecondsToStoreOutOfBounds
  | ErrBreakerOpen
  | other (n : Nat)
deriving DecidableEq, Repr

structure HealthCountsBucket where
  failures : Int
  success : Int
  lastWrite : Time
deriving DecidableEq, Repr

/-- The zero value of `HealthCountsBucket` (what `make` fills the slice with). -/
def zeroBucket : HealthCountsBucket :=
  { failures := 0, success := 0, lastWrite := ⟨0⟩ }

structure HealthSummary where
  Failures : Int
  Success : Int
  Total : Int
  ErrorPercentage : ℚ
  LastFailure : Time
  LastSuccess : Time
deriving DecidableEq, Repr

/-- The counter state owned by the event loop.  The channels and the
cancellation context only wire the event loop up and are not part of the
modelled state. -/
structure HealthCounts where
  values : List HealthCountsBucket
  buckets : Nat
  window : Duration
  lastFailure : Time
  lastSuccess : Time
deriving DecidableEq, Repr

/-- `NewHealthCounts`: validates the window size and builds the counter. -/
def NewHealthCounts (numberOfSecondsToStore : Int) : Except GoError HealthCounts :=
  if numberOfSecondsToStore ≤ 0 || numberOfSecondsToStore > 60 then
    .error .ErrNumberOfSecondsToStoreOutOfBounds
  else
    .ok { values := List.replicate numberOfSecondsToStore.toNat zeroBucket
          buckets := numberOfSecondsToStore.toNat
          window := numberOfSecondsToStore * secondDuration
          lastFailure := ⟨0⟩
          lastSuccess := ⟨0⟩ }

/-- The loop body of `doSummary`: add a bucket's counts to the running
`(Success, Failures)` pair when its last write is set and within the window. -/
def sumStep (now : Time) (window : Duration) (p : Int × Int)
    (value : HealthCountsBucket) : Int × Int :=
  if !value.lastWrite.isZero && (Time.sub now value.lastWrite ≤ window) then
    (p.1 + value.success, p.2 + value.failures)
  else p

/-- `doSummary`, run by the event loop at instant `now`.  It reads but never
writes the counter state, which is returned unchanged alongside the summary.
`ErrorPercentage` is `float64(hs.Failures/hs.Total) * 100`: the `int64`
quotient (truncated division) converted to float, then scaled by 100.  Both
steps are exact in `float64` for the magnitudes a counter can hold, so the
value is the integer `(Failures/Total)*100` viewed in `ℚ`. -/
def doSummary (hc : HealthCounts) (now : Time) : HealthSummary × HealthCounts :=
  let acc := hc.values.foldl (sumStep now hc.window) (0, 0)
  let total : Int := acc.1 + acc.2
  ({ Success := acc.1
     Failures := acc.2
     Total := total
     ErrorPercentage := if total = 0 then 0 else ((Int.tdiv acc.2 total * 100 : Int) : ℚ)
     LastFailure := hc.lastFailure
     LastSuccess := hc.lastSuccess }, hc)

/-- `(*HealthCountsBucket).reset`. -/
def HealthCountsBucket.reset (b : HealthCountsBucket) : HealthCountsBucket :=
  { b with failures := 0, success := 0 }

/-- In-place update of one slice element. -/
def modifyAt : List HealthCountsBucket → Nat → (HealthCountsBucket → HealthCountsBucket) →
    List HealthCountsBucket
  | [], _, _ => []
  | a :: as, 0, f => f a :: as
  | a :: as, n + 1, f => a :: modifyAt as n f

/-- The index computed by `bucket()`: current wall-clock second modulo the
number of buckets. -/
def bucketIndex (hc : HealthCounts) (now : Time) : Nat :=
  now.second % hc.buckets

/-- What `bucket()` does to the selected bucket before handing it to the
caller: reset the counts when the slot's previous occupant has aged out of
the window, then stamp `lastWrite` with the current instant. -/
def touch (now : Time) (window : Duration) (b : HealthCountsBucket) : HealthCountsBucket :=
  let b := if !b.lastWrite.isZero && (Time.sub now b.lastWrite > window) then b.reset else b
  { b with lastWrite := now }

/-- `doSuccess`: `hc.bucket().success++` and stamp `lastSuccess`. -/
def doSuccess (hc : HealthCounts) (now : Time) : HealthCounts :=
  { hc with
      values := modifyAt hc.values (bucketIndex hc now)
        (fun b => let b := touch now hc.window b; { b with success := b.success + 1 })
      lastSuccess := now }

/-- `doFail` as in the counter file of unknown name: `hc.bucket().failures++`
and stamp `lastFailure`. -/
def doFail (hc : HealthCounts) (now : Time) : HealthCounts :=
  { hc with
      values := modifyAt hc.values (bucketIndex hc now)
        (fun b => let b := touch now hc.window b; { b with failures := b.failures + 1 })
      lastFailure := now }

namespace CountersGo

/-- `doFail` as written in `counters.go`: `hc.bucket().success++` (the
failure path increments the success counter) and stamp `lastFailure`. -/
def doFail (hc : HealthCounts) (now : Time) : HealthCounts :=
  { hc with
      values := modifyAt hc.values (bucketIndex hc now)
        (fun b => let b := touch now hc.window b; { b with success := b.success + 1 })
      lastFailure := now }

end CountersGo

/-- The breaker's `uint32` state constants `CloseState = 0`, `OpenState = 1`. -/
inductive BreakerState where
  | CloseState
  | OpenState
deriving DecidableEq, Repr

export BreakerState (CloseState OpenState)

structure Options where
  ErrorsPercentage : ℚ
  MinimumNumberOfRequest : Int
  NumberOfSecondsToStore : Int
deriving DecidableEq, Repr

def OptionsDefault : Options :=
  { ErrorsPercentage := 50
    MinimumNumberOfRequest := 20
    NumberOfSecondsToStore := 10 }

/-- The breaker.  The `changes` notification channel has no modelled effect
(its send in `update` is non-blocking and drops when unread). -/
structure Breaker where
  state : BreakerState
  healthCounts : HealthCounts
  options : Options
deriving DecidableEq, Repr

/-- `NewBreaker`: builds the counter from the options; on an invalid window
the error propagates and no breaker is produced. -/
def NewBreaker (opt : Options) : Except GoError Breaker :=
  match NewHealthCounts opt.NumberOfSecondsToStore with
  | .error e => .error e
  | .ok hc => .ok { state := CloseState, healthCounts := hc, options := opt }

/-- `checkState`: take a summary and derive the target state. -/
def checkState (b : Breaker) (now : Time) : BreakerState :=
  let hs := (doSummary b.healthCounts now).1
  if hs.Total < b.options.MinimumNumberOfRequest then CloseState
  else if hs.ErrorPercentage ≥ b.options.ErrorsPercentage then OpenState
  else CloseState

/-- `update`: recompute the target state and swap it in when it changed,
returning the new state.  Sequentially the compare-and-swap succeeds. -/
def update (b : Breaker) (now : Time) : BreakerState × Breaker :=
  let state := b.state
  let newState := checkState b now
  if state = newState then (state, b)
  else (newState, { b with state := newState })

/-- `b.fail()`: record the failure in the counter, then re-evaluate state.
Uses the `doFail` of the counter file of unknown name. -/
def breakerFail (b : Breaker) (now : Time) : Breaker :=
  (update { b with healthCounts := doFail b.healthCounts now } now).2

/-- `b.success()`: record the success in the counter, then re-evaluate state. -/
def breakerSuccess (b : Breaker) (now : Time) : Breaker :=
  (update { b with healthCounts := doSuccess b.healthCounts now } now).2

/-- What a run of `Call` produced: the returned error, the breaker state
afterwards (with the asynchronous outcome recording applied), how many times
the wrapped operation was invoked, and how many state re-evaluations ran
before the admission decision. -/
structure CallResult where
  ret : Option GoError
  breaker : Breaker
  fnInvocations : Nat
  updatesBeforeAdmission : Nat
deriving DecidableEq, Repr

/-- `Call`: load the state; when it is `OpenState` and a re-evaluation still
yields `OpenState`, reject with `ErrBreakerOpen` without invoking the
operation.  Otherwise invoke the operation once (its outcome is `fnErr`,
`none` for success) and dispatch the outcome recording; the operation's
error is returned unchanged.  The `&&` in the guard short-circuits: with a
`CloseState` load, `update` is not called before admission. -/
def recordOutcome (b : Breaker) (fnErr : Option GoError) (now : Time) : Breaker :=
  match fnErr with
  | some _ => breakerFail b now
  | none => breakerSuccess b now

def Call (b : Breaker) (fnErr : Option GoError) (now : Time) : CallResult :=
  if b.state = OpenState then
    if (update b now).1 = OpenState then
      { ret := some .ErrBreakerOpen, breaker := (update b now).2
        fnInvocations := 0, updatesBeforeAdmission := 1 }
    else
      { ret := fnErr, breaker := recordOutcome (update b now).2 fnErr now
        fnInvocations := 1, updatesBeforeAdmission := 1 }
  else
    { ret := fnErr, breaker := recordOutcome b fnErr now
      fnInvocations := 1, updatesBeforeAdmission := 0 }

/-- Whether a bucket contributes to a summary taken at `now`: its last write
is set and within the window. -/
def inWindow (now : Time) (window : Duration) (value : HealthCountsBucket) : Bool :=
  !value.lastWrite.isZero && (Time.sub now value.lastWrite ≤ window)

/-- Modelled from the spec: the error percentage the spec prescribes,
`100*failures/total` with full (exact) division when `total > 0`, else 0. -/
def specErrorPercentage (failures total : Int) : ℚ :=
  if total = 0 then 0 else 100 * (failures : ℚ) / (total : ℚ)

/-- The events a breaker processes over its life: a recorded success, a
recorded failure (each followed by a state re-evaluation, as in
`b.success()` / `b.fail()`), or a bare re-evaluation. -/
inductive BEvent where
  | success (t : Time)
  | fail (t : Time)
  | reeval (t : Time)
deriving DecidableEq, Repr

def eventTime : BEvent → Time
  | .success t => t
  | .fail t => t
  | .reeval t => t

/-- The counter-recording half of an event, before the re-evaluation. -/
def recordOnly (b : Breaker) : BEvent → Breaker
  | .success t => { b with healthCounts := doSuccess b.healthCounts t }
  | .fail t => { b with healthCounts := doFail b.healthCounts t }
  | .reeval _ => b

/-- One full event: record, then re-evaluate the state. -/
def applyEvent (b : Breaker) (e : BEvent) : Breaker :=
  (update (recordOnly b e) (eventTime e)).2

def runEvents (b : Breaker) (es : List BEvent) : Breaker :=
  es.foldl applyEvent b

/-- Every health summary seen by a re-evaluation along the run has
`Total < MinimumNumberOfRequest`. -/
def allLowVolume (b : Breaker) : List BEvent → Bool
  | [] => true
  | e :: es =>
    decide ((doSummary (recordOnly b e).healthCounts (eventTime e)).1.Total
        < b.options.MinimumNumberOfRequest)
      && allLowVolume (applyEvent b e) es

/-! ### Concrete fixtures -/

/-- An instant 5 seconds after the zero instant (so `second = 5`). -/
def t5 : Time := ⟨5000000000⟩

/-- The counter `NewHealthCounts 10` builds (the `OptionsDefault` window). -/
def testHC : HealthCounts :=
  { values := List.replicate 10 zeroBucket, buckets := 10,
    window := 10 * secondDuration, lastFailure := ⟨0⟩, lastSuccess := ⟨0⟩ }

/-- `n` failures recorded at instant `t`. -/
def failsN (n : Nat) (t : Time) (hc : HealthCounts) : HealthCounts :=
  Nat.iterate (fun h => doFail h t) n hc

/-- `n` successes recorded at instant `t`. -/
def succN (n : Nat) (t : Time) (hc : HealthCounts) : HealthCounts :=
  Nat.iterate (fun h => doSuccess h t) n hc

/-- 11 failures and 9 successes recorded at `t5`: 20 outcomes in the window,
error rate 55%. -/
def hcMixed : HealthCounts := succN 9 t5 (failsN 11 t5 testHC)

/-- 20 failures recorded at `t5`. -/
def hcAllFail : HealthCounts := failsN 20 t5 testHC

theorem testHC_from_constructor : NewHealthCounts 10 = .ok testHC := rfl

/-! ### Helper lemmas -/

theorem sumStep_foldl (now : Time) (w : Duration) :
    ∀ (l : List HealthCountsBucket) (p : Int × Int),
      l.foldl (sumStep now w) p
        = (p.1 + ((l.filter (inWindow now w)).map HealthCountsBucket.success).sum,
           p.2 + ((l.filter (inWindow now w)).map HealthCountsBucket.failures).sum) := by
  intro l
  induction l with
  | nil => intro p; simp
  | cons v l ih =>
    intro p
    rw [List.foldl_cons, ih, List.filter_cons]
    simp only [inWindow, sumStep]
    by_cases hv : (!v.lastWrite.isZero && decide (Time.sub now v.lastWrite ≤ w)) = true
    · simp only [if_pos hv, List.map_cons, List.sum_cons]
      simp [add_assoc]
    · simp only [if_neg hv]

theorem modifyAt_get? (f : HealthCountsBucket → HealthCountsBucket) :
    ∀ (l : List HealthCountsBucket) (i j : Nat),
      (modifyAt l i f).get? j = if j = i then (l.get? i).map f else l.get? j := by
  intro l
  induction l with
  | nil => intro i j; simp [modifyAt]
  | cons a l ih =>
    intro i j
    cases i with
    | zero =>
      cases j with
      | zero => simp [modifyAt]
      | succ j => simp [modifyAt]
    | succ i =>
      cases j with
      | zero => simp [modifyAt]
      | succ j => simpa [modifyAt, Nat.succ_eq_add_one] using ih i j

theorem update_healthCounts (b : Breaker) (now : Time) :
    (update b now).2.healthCounts = b.healthCounts := by
  unfold update
  dsimp only
  split <;> rfl

theorem update_options (b : Breaker) (now : Time) :
    (update b now).2.options = b.options := by
  unfold update
  dsimp only
  split <;> rfl

theorem checkState_low_volume (b : Breaker) (now : Time)
    (h : (doSummary b.healthCounts now).1.Total < b.options.MinimumNumberOfRequest) :
    checkState b now = CloseState := by
  unfold checkState
  rw [if_pos h]

theorem update_state_eq (b : Breaker) (now : Time) :
    (update b now).1 = checkState b now ∧ (update b now).2.state = checkState b now := by
  unfold update
  dsimp only
  split
  · rename_i h; exact ⟨h, h⟩
  · exact ⟨rfl, rfl⟩

/-! ### Claims -/

/-- C1: the claim says `ErrorPercentage = 100 * Failures / Total` with full
floating-point division whenever `Total > 0`.  The code divides the `int64`
counts first (truncating division) and only then converts and scales: with
11 failures among 20 in-window outcomes it reports `ErrorPercentage = 0`,
where the claimed formula gives 55. -/
theorem errorPercentage_truncates_at_11_of_20 :
    (doSummary hcMixed t5).1.Total = 20 ∧
    (doSummary hcMixed t5).1.Failures = 11 ∧
    (doSummary hcMixed t5).1.ErrorPercentage = 0 ∧
    specErrorPercentage 11 20 = 55 := by
  refine ⟨by decide, by decide, by decide, ?_⟩
  norm_num [specErrorPercentage]

/-- C2: the claim says every `doFail` variant increments the selected
bucket's failure counter and leaves its success counter alone.  The
`counters.go` variant instead increments the success counter: on a fresh
counter a single `doFail` yields `failures = 0, success = 1` in the selected
bucket, while the other variant yields `failures = 1, success = 0`. -/
theorem countersGo_doFail_increments_success :
    (CountersGo.doFail testHC t5).values.get? 5
        = some { failures := 0, success := 1, lastWrite := t5 } ∧
    (doFail testHC t5).values.get? 5
        = some { failures := 1, success := 0, lastWrite := t5 } :=
  ⟨by decide, by decide⟩

/-- C3: the claim says 20 outcomes with 11 failures, threshold 50 and
minimum volume 20 make the target state `Open`.  Because `doSummary`
truncates the error percentage to 0 (see C1), `checkState` returns
`CloseState` there; the 9-failure example does yield `CloseState`. -/
theorem checkState_close_at_11_of_20 :
    OptionsDefault.ErrorsPercentage = 50 ∧
    OptionsDefault.MinimumNumberOfRequest = 20 ∧
    (doSummary hcMixed t5).1.Total = 20 ∧
    (doSummary hcMixed t5).1.Failures = 11 ∧
    checkState { state := CloseState, healthCounts := hcMixed
                 options := OptionsDefault } t5 = CloseState ∧
    checkState { state := CloseState, healthCounts := succN 11 t5 (failsN 9 t5 testHC)
                 options := OptionsDefault } t5 = CloseState :=
  ⟨by decide, by decide, by decide, by decide, by decide, by decide⟩

/-- A breaker sitting `OpenState` over 20 in-window failures (re-evaluation
keeps it `OpenState`: total 20 ≥ 20 and error percentage 100 ≥ 50). -/
def openBreaker : Breaker :=
  { state := OpenState, healthCounts := hcAllFail, options := OptionsDefault }

/-- A breaker still `CloseState` although its counter already satisfies the
open condition. -/
def hotClosedBreaker : Breaker :=
  { state := CloseState, healthCounts := hcAllFail, options := OptionsDefault }

/-- C4: when the loaded state is `OpenState` and the re-evaluation still
yields `OpenState`, `Call` returns `ErrBreakerOpen`, never invokes the
wrapped operation, and leaves the counter (buckets and timestamps)
untouched. -/
theorem call_open_rejects (b : Breaker) (fnErr : Option GoError) (now : Time)
    (h1 : b.state = OpenState) (h2 : (update b now).1 = OpenState) :
    (Call b fnErr now).ret = some GoError.ErrBreakerOpen ∧
    (Call b fnErr now).fnInvocations = 0 ∧
    (Call b fnErr now).breaker.healthCounts = b.healthCounts := by
  unfold Call
  rw [if_pos h1, if_pos h2]
  exact ⟨rfl, rfl, update_healthCounts b now⟩

/-- Witness for C4 at a concrete open breaker. -/
theorem call_open_rejects_witness :
    (openBreaker.state = OpenState ∧ (update openBreaker t5).1 = OpenState) ∧
    ((Call openBreaker (some (GoError.other 7)) t5).ret = some GoError.ErrBreakerOpen ∧
     (Call openBreaker (some (GoError.other 7)) t5).fnInvocations = 0 ∧
     (Call openBreaker (some (GoError.other 7)) t5).breaker.healthCounts
       = openBreaker.healthCounts) :=
  ⟨⟨by decide, by decide⟩,
   call_open_rejects openBreaker (some (GoError.other 7)) t5 (by decide) (by decide)⟩

/-- C10: when the loaded state is `CloseState` the guard short-circuits: no
re-evaluation runs before admission, the wrapped operation is invoked
exactly once, its error is returned unchanged, and the breaker then just
records the outcome. -/
theorem call_close_admits (b : Breaker) (fnErr : Option GoError) (now : Time)
    (h : b.state = CloseState) :
    (Call b fnErr now).ret = fnErr ∧
    (Call b fnErr now).fnInvocations = 1 ∧
    (Call b fnErr now).updatesBeforeAdmission = 0 ∧
    (Call b fnErr now).breaker = recordOutcome b fnErr now := by
  have h' : ¬ b.state = OpenState := by rw [h]; intro hco; cases hco
  unfold Call
  rw [if_neg h']
  exact ⟨rfl, rfl, rfl, rfl⟩

/-- Witness for C10 at a breaker whose summary already satisfies the open
condition yet whose loaded state is `CloseState`. -/
theorem call_close_admits_witness :
    hotClosedBreaker.state = CloseState ∧
    checkState hotClosedBreaker t5 = OpenState ∧
    ((Call hotClosedBreaker (some (GoError.other 3)) t5).ret = some (GoError.other 3) ∧
     (Call hotClosedBreaker (some (GoError.other 3)) t5).fnInvocations = 1 ∧
     (Call hotClosedBreaker (some (GoError.other 3)) t5).updatesBeforeAdmission = 0 ∧
     (Call hotClosedBreaker (some (GoError.other 3)) t5).breaker
       = recordOutcome hotClosedBreaker (some (GoError.other 3)) t5) :=
  ⟨by decide, by decide,
   call_close_admits hotClosedBreaker (some (GoError.other 3)) t5 (by decide)⟩

/-- C8: window validation.  `NewHealthCounts` (and `NewBreaker`, which
propagates the error and produces no breaker) fails with the out-of-bounds
error exactly outside [1,60]; in particular 0 and 61 fail while 1 and 60
succeed. -/
theorem newHealthCounts_window_validation :
    (∀ n : Int, n ≤ 0 ∨ 60 < n →
        NewHealthCounts n = .error .ErrNumberOfSecondsToStoreOutOfBounds) ∧
    (∀ n : Int, 0 < n → n ≤ 60 → ∃ hc, NewHealthCounts n = .ok hc) ∧
    (∀ opt : Options, opt.NumberOfSecondsToStore ≤ 0 ∨ 60 < opt.NumberOfSecondsToStore →
        NewBreaker opt = .error .ErrNumberOfSecondsToStoreOutOfBounds) ∧
    (∀ opt : Options, 0 < opt.NumberOfSecondsToStore → opt.NumberOfSecondsToStore ≤ 60 →
        ∃ br, NewBreaker opt = .ok br ∧ br.state = CloseState) ∧
    NewHealthCounts 0 = .error .ErrNumberOfSecondsToStoreOutOfBounds ∧
    NewHealthCounts 61 = .error .ErrNumberOfSecondsToStoreOutOfBounds ∧
    (∃ hc, NewHealthCounts 1 = .ok hc) ∧
    (∃ hc, NewHealthCounts 60 = .ok hc) := by
  have herr : ∀ n : Int, n ≤ 0 ∨ 60 < n →
      NewHealthCounts n = .error .ErrNumberOfSecondsToStoreOutOfBounds := by
    intro n h
    unfold NewHealthCounts
    rw [if_pos]
    simp only [Bool.or_eq_true, decide_eq_true_eq]
    omega
  have hok : ∀ n : Int, 0 < n → n ≤ 60 → ∃ hc, NewHealthCounts n = .ok hc := by
    intro n h1 h2
    unfold NewHealthCounts
    rw [if_neg]
    · exact ⟨_, rfl⟩
    · simp only [Bool.or_eq_true, decide_eq_true_eq]
      omega
  refine ⟨herr, hok, ?_, ?_, herr 0 (by omega), herr 61 (by omega),
    hok 1 (by omega) (by omega), hok 60 (by omega) (by omega)⟩
  · intro opt h
    unfold NewBreaker
    rw [herr opt.NumberOfSecondsToStore h]
  · intro opt h1 h2
    obtain ⟨hc, hhc⟩ := hok opt.NumberOfSecondsToStore h1 h2
    exact ⟨_, by unfold NewBreaker; rw [hhc], rfl⟩

/-- C5: starting from `CloseState`, as long as every health summary seen by
a re-evaluation has `Total < MinimumNumberOfRequest`, the breaker stays
`CloseState` regardless of the error percentage. -/
theorem close_stays_under_low_volume (es : List BEvent) (b : Breaker)
    (hb : b.state = CloseState) (hlow : allLowVolume b es = true) :
    (runEvents b es).state = CloseState := by
  induction es generalizing b with
  | nil => simpa [runEvents] using hb
  | cons e es ih =>
    rw [allLowVolume, Bool.and_eq_true, decide_eq_true_eq] at hlow
    obtain ⟨h1, h2⟩ := hlow
    have hopt : (recordOnly b e).options = b.options := by cases e <;> rfl
    have hcs : checkState (recordOnly b e) (eventTime e) = CloseState := by
      refine checkState_low_volume _ _ ?_
      rw [hopt]
      exact h1
    have hstate : (applyEvent b e).state = CloseState := by
      rw [applyEvent, (update_state_eq (recordOnly b e) (eventTime e)).2, hcs]
    have hrun : runEvents b (e :: es) = runEvents (applyEvent b e) es := rfl
    rw [hrun]
    exact ih (applyEvent b e) hstate h2

/-- A breaker started over a fresh default-options counter. -/
def freshClosedBreaker : Breaker :=
  { state := CloseState, healthCounts := testHC, options := OptionsDefault }

/-- Witness for C5: 19 consecutive failures under minimum volume 20 and
threshold 50 leave the state `CloseState`. -/
theorem close_stays_under_low_volume_witness :
    (freshClosedBreaker.state = CloseState ∧
     allLowVolume freshClosedBreaker (List.replicate 19 (BEvent.fail t5)) = true) ∧
    (runEvents freshClosedBreaker (List.replicate 19 (BEvent.fail t5))).state
      = CloseState :=
  ⟨⟨by decide, by decide⟩,
   close_stays_under_low_volume (List.replicate 19 (BEvent.fail t5)) freshClosedBreaker
     (by decide) (by decide)⟩

/-- C6: `doSummary` leaves the counter untouched and sums exactly the
buckets whose last write is set and within the window of `now`; everything
else contributes zero. -/
theorem doSummary_sums_in_window_buckets (hc : HealthCounts) (now : Time) :
    (doSummary hc now).2 = hc ∧
    (doSummary hc now).1.Success
      = ((hc.values.filter (inWindow now hc.window)).map HealthCountsBucket.success).sum ∧
    (doSummary hc now).1.Failures
      = ((hc.values.filter (inWindow now hc.window)).map HealthCountsBucket.failures).sum ∧
    (doSummary hc now).1.Total
      = (doSummary hc now).1.Success + (doSummary hc now).1.Failures := by
  unfold doSummary
  rw [sumStep_foldl]
  refine ⟨rfl, by simp, by simp, rfl⟩

/-- C7: every write selects the bucket at index `second mod buckets`; when
that slot's previous occupant is set and strictly older than the window its
counts are zeroed before the increment; in all cases `lastWrite` becomes the
current instant.  Shown for `doSuccess`, `doFail`, and the `counters.go`
`doFail`. -/
theorem write_selects_second_mod_buckets (hc : HealthCounts) (now : Time)
    (old : HealthCountsBucket)
    (hold : hc.values.get? (bucketIndex hc now) = some old) :
    bucketIndex hc now = now.second % hc.buckets ∧
    (doSuccess hc now).values.get? (bucketIndex hc now) = some
      { failures := if !old.lastWrite.isZero && (Time.sub now old.lastWrite > hc.window)
                    then 0 else old.failures
        success := (if !old.lastWrite.isZero && (Time.sub now old.lastWrite > hc.window)
                    then 0 else old.success) + 1
        lastWrite := now } ∧
    (doFail hc now).values.get? (bucketIndex hc now) = some
      { failures := (if !old.lastWrite.isZero && (Time.sub now old.lastWrite > hc.window)
                     then 0 else old.failures) + 1
        success := if !old.lastWrite.isZero && (Time.sub now old.lastWrite > hc.window)
                   then 0 else old.success
        lastWrite := now } ∧
    (CountersGo.doFail hc now).values.get? (bucketIndex hc now) = some
      { failures := if !old.lastWrite.isZero && (Time.sub now old.lastWrite > hc.window)
                    then 0 else old.failures
        success := (if !old.lastWrite.isZero && (Time.sub now old.lastWrite > hc.window)
                    then 0 else old.success) + 1
        lastWrite := now } := by
  have key : ∀ f : HealthCountsBucket → HealthCountsBucket,
      (modifyAt hc.values (bucketIndex hc now) f).get? (bucketIndex hc now)
        = some (f old) := by
    intro f
    rw [modifyAt_get?, if_pos rfl, hold]
    rfl
  refine ⟨rfl, ?_, ?_, ?_⟩ <;>
  · first
      | rw [show (doSuccess hc now).values
              = modifyAt hc.values (bucketIndex hc now)
                  (fun b => let b := touch now hc.window b;
                    { b with success := b.success + 1 }) from rfl, key]
      | rw [show (doFail hc now).values
              = modifyAt hc.values (bucketIndex hc now)
                  (fun b => let b := touch now hc.window b;
                    { b with failures := b.failures + 1 }) from rfl, key]
      | rw [show (CountersGo.doFail hc now).values
              = modifyAt hc.values (bucketIndex hc now)
                  (fun b => let b := touch now hc.window b;
                    { b with success := b.success + 1 }) from rfl, key]
    simp only [touch, HealthCountsBucket.reset]
    by_cases hstale :
        (!old.lastWrite.isZero && decide (Time.sub now old.lastWrite > hc.window)) = true
    · simp [hstale]
    · simp [hstale]

/-- A counter whose slot 5 holds counts 3/4 written at `t5`. -/
def hcStale : HealthCounts :=
  { testHC with
      values := modifyAt testHC.values 5
        (fun _ => { failures := 3, success := 4, lastWrite := t5 }) }

/-- An instant just past a full window after `t5` (second-of-minute 15). -/
def t15 : Time := ⟨15000000001⟩

/-- Witness for C7: a write at `t15` hits slot `15 % 10 = 5`, finds the `t5`
occupant aged out, and resets it before incrementing. -/
theorem write_selects_second_mod_buckets_witness :
    hcStale.values.get? (bucketIndex hcStale t15)
        = some { failures := 3, success := 4, lastWrite := t5 } ∧
    (bucketIndex hcStale t15 = Time.second t15 % hcStale.buckets ∧
     (doSuccess hcStale t15).values.get? (bucketIndex hcStale t15) = some
       { failures := if !Time.isZero t5 && (Time.sub t15 t5 > hcStale.window) then 0 else 3
         success := (if !Time.isZero t5 && (Time.sub t15 t5 > hcStale.window) then 0 else 4) + 1
         lastWrite := t15 } ∧
     (doFail hcStale t15).values.get? (bucketIndex hcStale t15) = some
       { failures := (if !Time.isZero t5 && (Time.sub t15 t5 > hcStale.window) then 0 else 3) + 1
         success := if !Time.isZero t5 && (Time.sub t15 t5 > hcStale.window) then 0 else 4
         lastWrite := t15 } ∧
     (CountersGo.doFail hcStale t15).values.get? (bucketIndex hcStale t15) = some
       { failures := if !Time.isZero t5 && (Time.sub t15 t5 > hcStale.window) then 0 else 3
         success := (if !Time.isZero t5 && (Time.sub t15 t5 > hcStale.window) then 0 else 4) + 1
         lastWrite := t15 }) :=
  ⟨by decide, write_selects_second_mod_buckets hcStale t15
    { failures := 3, success := 4, lastWrite := t5 } (by decide)⟩

/-- C9: when every bucket is unset or strictly older than the window, the
summary reports `Total = 0`, and an `OpenState` breaker (with a positive
minimum request volume) re-evaluates to `CloseState`. -/
theorem stale_window_recovers (b : Breaker) (now : Time)
    (hstale : ∀ v ∈ b.healthCounts.values,
        v.lastWrite.isZero = true ∨ b.healthCounts.window < Time.sub now v.lastWrite)
    (hmin : 0 < b.options.MinimumNumberOfRequest)
    (_hopen : b.state = OpenState) :
    (doSummary b.healthCounts now).1.Total = 0 ∧
    (update b now).1 = CloseState ∧ (update b now).2.state = CloseState := by
  have hfil : b.healthCounts.values.filter (inWindow now b.healthCounts.window) = [] := by
    rw [List.filter_eq_nil_iff]
    intro v hv
    rcases hstale v hv with h | h
    · simp [inWindow, h]
    · simp only [inWindow, Bool.and_eq_true, decide_eq_true_eq, not_and]
      exact fun _ => not_le.mpr h
  have htot : (doSummary b.healthCounts now).1.Total = 0 := by
    unfold doSummary
    rw [sumStep_foldl, hfil]
    simp
  have hcs : checkState b now = CloseState := checkState_low_volume b now (by omega)
  exact ⟨htot, by rw [(update_state_eq b now).1, hcs],
    by rw [(update_state_eq b now).2, hcs]⟩

/-- Witness for C9: the open breaker over 20 failures written at `t5`, read
just past a full window later. -/
theorem stale_window_recovers_witness :
    ((∀ v ∈ openBreaker.healthCounts.values,
        v.lastWrite.isZero = true ∨ openBreaker.healthCounts.window < Time.sub t15 v.lastWrite) ∧
     0 < openBreaker.options.MinimumNumberOfRequest ∧
     openBreaker.state = OpenState) ∧
    ((doSummary openBreaker.healthCounts t15).1.Total = 0 ∧
     (update openBreaker t15).1 = CloseState ∧
     (update openBreaker t15).2.state = CloseState) :=
  ⟨⟨by decide, by decide, by decide⟩,
   stale_window_recovers openBreaker t15 (by decide) (by decide) (by decide)⟩

end CircuitBreaker
